import Mathlib

/-!
Verification development for the CCTA_3-4 unpublished-course audit tool.

The development shallowly embeds the Go sources:
* `pkg/canvas/main.go` — the rate-governed API client (`APIManager.Get`);
  a second variant of the same `Get` method found elsewhere in the
  repository (referred to as `part_001` below) is embedded separately
  where the two differ (header-parse defaults and sleep jitter).
* `cmd/app/main.go` — course selection, the per-course probes, report-row
  assembly and the CSV record construction, plus the paginated
  `getCourses` loop.

Go `float64` header values and the running average are modelled as `ℚ`
(decimal literals such as 0.25, 0.5, 0.75, 1.2 are modelled as the exact
rationals 1/4, 1/2, 3/4, 6/5; every comparison the claims exercise is far
from a rounding boundary, so the rational model agrees with the float
code on all inputs used here).  `time.Duration` values are modelled as
nanosecond counts in `ℕ`.  Go strings that the code parses are modelled
as `List Char`.
-/

/-! ## Go string helpers (`strings.Split`, `strings.Contains`,
`strings.Trim`, `strings.CutPrefix`, `strings.HasPrefix`) on `List Char` -/

abbrev GoStr := List Char

/-- Go `strings.Split(s, sep)` for a one-character separator: splits
around every occurrence of `sep`, yielding count+1 parts. -/
def goSplit (sep : Char) : GoStr → List GoStr
  | [] => [[]]
  | c :: rest =>
    match goSplit sep rest with
    | [] => [[]]
    | part :: parts => if c = sep then [] :: part :: parts else (c :: part) :: parts

/-- Go `strings.Contains(s, sub)`: `sub` occurs as a contiguous substring. -/
def goContains (s sub : GoStr) : Bool := decide (sub <:+: s)

/-- Go `strings.Trim(s, cutset)`: remove all leading and trailing
characters contained in `cutset`. -/
def goTrim (cutset : GoStr) (s : GoStr) : GoStr :=
  ((s.dropWhile (fun c => cutset.contains c)).reverse.dropWhile
    (fun c => cutset.contains c)).reverse

/-- Go `strings.CutPrefix(s, pre)`: returns `s` with `pre` removed and
whether `pre` was actually a prefix (the caller in `getCourses` ignores
the boolean). -/
def goCutPrefix (s pre : GoStr) : GoStr × Bool :=
  if pre.isPrefixOf s then (s.drop pre.length, true) else (s, false)

/-- Go `strings.HasPrefix(s, pre)` on Lean strings, evaluated on the
underlying character lists. -/
def goHasPrefix (s pre : String) : Bool := pre.toList.isPrefixOf s.toList

/-! ## RateGovernor / HttpFetcher state (`pkg/canvas/main.go`) -/

/-- One nanosecond count for Go `time.Second`. -/
def secondNs : ℕ := 1000000000

/-- The mutable fields of `canvas.APIManager` that `Get` reads and
writes (the HTTP client, logger and config carry no rate state). -/
structure APIState where
  maxRateLimit : ℕ
  rateLimitRemaining : ℚ
  averageRateCost : ℚ
  requestSendCount : ℕ
  responseReceivedCount : ℕ
deriving DecidableEq, Repr

/-- `canvas.NewAPI`: the rate-state part of the constructor — remaining
quota starts at the maximum, the average cost at zero, both counters at
zero. -/
def NewAPI (rateLimitMax : ℕ) : APIState :=
  { maxRateLimit := rateLimitMax
    rateLimitRemaining := (rateLimitMax : ℚ)
    averageRateCost := 0
    requestSendCount := 0
    responseReceivedCount := 0 }

/-- The delay ladder of `Get` (`pkg/canvas/main.go` lines 85–96): a
discrete delay in nanoseconds keyed on the remaining quota compared with
0.25/0.5/0.75 of the maximum; `time.Duration(max) * time.Second / 2`
etc. is the integer division of the nanosecond count.  The ladder takes
no cost argument: tier selection is independent of the observed cost. -/
def ladderDelay (maxRateLimit : ℕ) (remaining : ℚ) : ℕ :=
  if remaining ≤ (maxRateLimit : ℚ) * (1/4) then maxRateLimit * secondNs / 2
  else if remaining ≤ (maxRateLimit : ℚ) * (1/2) then maxRateLimit * secondNs / 4
  else if remaining ≤ (maxRateLimit : ℚ) * (3/4) then maxRateLimit * secondNs / 8
  else 0

/-- `APIManager.Get`, `pkg/canvas/main.go` lines 55–111, from the point
where a response was received: the state update and the computed delay
(nanoseconds) that is then slept.  `remH`/`costH` are the parse results
of the RateLimit-Remaining and Request-Cost headers (`none` = parse
failure; this variant of the file discards the `strconv.ParseFloat`
error, so a failed parse leaves Go's zero value 0).  The method's
sequential assignments are flattened into each field's final value,
preserving evaluation order: `previousCost` is the average read before
this cycle's update (line 58), the average update divides by the
already-incremented `requestSendCount` (lines 57 and 80), the ladder
reads the freshly recorded remaining quota (lines 85–96), the 429 check
overwrites the ladder delay (lines 97–100), and the cost-spike check
overwrites whatever delay is current (lines 102–106). -/
def Get_update (st : APIState) (remH costH : Option ℚ) (status : ℕ) : APIState × ℕ :=
  let previousCost : ℚ := st.averageRateCost
  let limit : ℚ := remH.getD 0
  let cost : ℚ := costH.getD 0
  let remaining : ℚ :=
    if limit < (st.maxRateLimit : ℚ) then limit else (st.maxRateLimit : ℚ)
  let average : ℚ :=
    if cost > 0 then
      st.averageRateCost + (cost - st.averageRateCost) / ((st.requestSendCount + 1 : ℕ) : ℚ)
    else st.averageRateCost
  let d1 : ℕ := ladderDelay st.maxRateLimit remaining
  let d2 : ℕ := if status = 429 then 300 * secondNs else d1
  let d3 : ℕ := if previousCost > 0 ∧ cost > previousCost * (6/5) then 30 * secondNs else d2
  ({ maxRateLimit := st.maxRateLimit
     rateLimitRemaining := remaining
     averageRateCost := average
     requestSendCount := st.requestSendCount + 1
     responseReceivedCount := st.responseReceivedCount + 1 }, d3)

/-- The error path of `Get` where `api.client.Do` fails (network error):
`requestSendCount` was already incremented, nothing else changes and no
response is observed (`pkg/canvas/main.go` lines 57 and 65–68). -/
def Get_sendFail (st : APIState) : APIState :=
  { st with requestSendCount := st.requestSendCount + 1 }

/-- The sleep performed by this variant of `Get` (lines 107–110): when
the delay is positive it sleeps exactly the computed delay — no jitter
is added in this file. -/
def Get_sleepNs (delayNs : ℕ) : ℕ := delayNs

/-- The `part_001` variant of `Get` (lines 57–122), flattened in the
same way: identical to `Get_update` except that a failed
RateLimit-Remaining parse defaults to `float64(api.maxRateLimit / 2)`
(Go integer division) and a failed Request-Cost parse defaults to the
current average. -/
def Get1_update (st : APIState) (remH costH : Option ℚ) (status : ℕ) : APIState × ℕ :=
  let previousCost : ℚ := st.averageRateCost
  let limit : ℚ := remH.getD ((st.maxRateLimit / 2 : ℕ) : ℚ)
  let cost : ℚ := costH.getD st.averageRateCost
  let remaining : ℚ :=
    if limit < (st.maxRateLimit : ℚ) then limit else (st.maxRateLimit : ℚ)
  let average : ℚ :=
    if cost > 0 then
      st.averageRateCost + (cost - st.averageRateCost) / ((st.requestSendCount + 1 : ℕ) : ℚ)
    else st.averageRateCost
  let d1 : ℕ := ladderDelay st.maxRateLimit remaining
  let d2 : ℕ := if status = 429 then 300 * secondNs else d1
  let d3 : ℕ := if previousCost > 0 ∧ cost > previousCost * (6/5) then 30 * secondNs else d2
  ({ maxRateLimit := st.maxRateLimit
     rateLimitRemaining := remaining
     averageRateCost := average
     requestSendCount := st.requestSendCount + 1
     responseReceivedCount := st.responseReceivedCount + 1 }, d3)

/-- The sleep performed by the `part_001` variant of `Get` (lines
117–121): `jitter := time.Duration(rand.Int63n(int64(delay)/4)) *
time.Millisecond` and then `time.Sleep(delay + jitter)`.  `r` is the
value drawn by `rand.Int63n`, so `r < delayNs / 4`; the multiplication
by `time.Millisecond` scales the draw by 10^6. -/
def part001_sleepNs (delayNs r : ℕ) : ℕ := delayNs + r * 1000000

/-! ## Data model of `cmd/app/main.go` -/

/-- `CanvasCourse` (`cmd/app/main.go` lines 16–23). -/
structure CanvasCourse where
  id : ℤ
  name : String
  workflowState : String
  defaultViewType : String
  format : String
  courseSISID : String
deriving DecidableEq, Repr

/-- `CanvasUser` (`cmd/app/main.go` lines 25–30). -/
structure CanvasUser where
  id : ℤ
  name : String
  email : String
  sisID : String
deriving DecidableEq, Repr

/-- `ResultItem` (`cmd/app/main.go` lines 32–42); the fields start at
Go's zero values (0 and ""), exactly as `var result ResultItem` does. -/
structure ResultItem where
  courseID : ℤ := 0
  courseName : String := ""
  subject : String := ""
  format : String := ""
  withModules : String := ""
  withAssignments : String := ""
  withFrontPage : String := ""
  facultyName : String := ""
  facultyEmail : String := ""
deriving DecidableEq, Repr

/-! ## Probe helpers (`cmd/app/main.go` lines 253–325)

Each probe's raw fetch outcome is `Option (ℕ × Option α)`: `none`
models `api.Get` returning an error (transport failure), `some (status,
none)` a response whose JSON body fails to decode, and `some (status,
some v)` a decoded body `v`.  Module and assignment bodies decode into
`[]map[string]interface{}` of which only the length is consulted, so
items are modelled as `Unit`. -/

/-- `getCourseModules`: non-200 status and decode failure produce
`(false, err)`; otherwise the boolean is whether the decoded list is
non-empty.  The second component models `err != nil`. -/
def getCourseModules (f : Option (ℕ × Option (List Unit))) : Bool × Bool :=
  match f with
  | none => (false, true)
  | some (status, body) =>
    if status ≠ 200 then (false, true)
    else
      match body with
      | none => (false, true)
      | some mods => (decide (mods.length > 0), false)

/-- `getCourseAssignments`: same shape as the modules probe. -/
def getCourseAssignments (f : Option (ℕ × Option (List Unit))) : Bool × Bool :=
  match f with
  | none => (false, true)
  | some (status, body) =>
    if status ≠ 200 then (false, true)
    else
      match body with
      | none => (false, true)
      | some assignments => (decide (assignments.length > 0), false)

/-- `getCourseFrontPage`: the decoded map's `"body"` entry is modelled
as `Option String` (`none` = key absent or not a string); the probe is
true when the entry is a non-empty string. -/
def getCourseFrontPage (f : Option (ℕ × Option (Option String))) : Bool × Bool :=
  match f with
  | none => (false, true)
  | some (status, body) =>
    if status ≠ 200 then (false, true)
    else
      match body with
      | none => (false, true)
      | some bodyField =>
        (match bodyField with
         | some content => decide (content ≠ "")
         | none => false, false)

/-- `getCourseTeachers`: transport failure, non-200 status and decode
failure are errors; otherwise the decoded teacher list is returned. -/
def getCourseTeachers (f : Option (ℕ × Option (List CanvasUser))) :
    Except Unit (List CanvasUser) :=
  match f with
  | none => .error ()
  | some (status, body) =>
    if status ≠ 200 then .error ()
    else
      match body with
      | none => .error ()
      | some teachers => .ok teachers

/-- The four raw fetch outcomes available to one course's audit. -/
structure CourseFetches where
  modules : Option (ℕ × Option (List Unit))
  frontPage : Option (ℕ × Option (Option String))
  assignments : Option (ℕ × Option (List Unit))
  teachers : Option (ℕ × Option (List CanvasUser))
deriving Repr

/-! ## Per-course audit (`cmd/app/main.go` lines 82–151)

The sequence of mutations of `result` inside the `unpublished` branch of
`main`, rendered as sequential rebindings.  Note that after each probe
the source first writes "Error" on a probe error and then
unconditionally runs `if value { "Yes" } else { "No" }` — so the "Error"
write is immediately overwritten (the teachers probe alone uses
`else if` and keeps its error sentinel). -/

def auditCourse (course : CanvasCourse) (f : CourseFetches) : ResultItem :=
  let result : ResultItem := { courseID := course.id, courseName := course.name }
  let parts := goSplit '-' course.courseSISID.toList
  let result :=
    if parts.length = 4 then { result with subject := String.mk (parts.getD 2 []) }
    else { result with subject := "Unknown" }
  let (mods, modsErr) := getCourseModules f.modules
  let result := if modsErr then { result with withModules := "Error" } else result
  let result :=
    if mods then { result with withModules := "Yes" }
    else { result with withModules := "No" }
  let result :=
    if course.defaultViewType = "wiki" then
      let (fp, fpErr) := getCourseFrontPage f.frontPage
      let result := if fpErr then { result with withFrontPage := "Error" } else result
      if fp then { result with withFrontPage := "Yes" }
      else { result with withFrontPage := "No" }
    else result
  let (asngs, asngsErr) := getCourseAssignments f.assignments
  let result := if asngsErr then { result with withAssignments := "Error" } else result
  let result :=
    if asngs then { result with withAssignments := "Yes" }
    else { result with withAssignments := "No" }
  match getCourseTeachers f.teachers with
  | .error _ => { result with facultyName := "Error", facultyEmail := "Error" }
  | .ok teachers =>
    if teachers.length > 0 then
      { result with
          facultyName := String.intercalate ", " (teachers.map (fun t => t.name))
          facultyEmail := String.intercalate ", "
            (teachers.map (fun t => if t.email ≠ "" then t.email else "No Email")) }
    else
      { result with facultyName := "No Faculty", facultyEmail := "No Email" }

/-- The HTTP probes an audited course triggers, in source order; the
front-page fetch happens only for courses whose default view is
"wiki". -/
inductive ProbeKind where
  | modules
  | frontPage
  | assignments
  | teachers
deriving DecidableEq, Repr

/-- The probe requests issued while auditing one course. -/
def auditRequests (course : CanvasCourse) : List (ℤ × ProbeKind) :=
  [(course.id, ProbeKind.modules)]
    ++ (if course.defaultViewType = "wiki" then [(course.id, ProbeKind.frontPage)] else [])
    ++ [(course.id, ProbeKind.assignments), (course.id, ProbeKind.teachers)]

/-! ## Course selection (`cmd/app/main.go` lines 67–81) -/

/-- The first loop of `main`: keep only courses whose SIS id starts with
the term key "6253-". -/
def courseListOf (courses : List CanvasCourse) : List CanvasCourse :=
  courses.filter (fun course => goHasPrefix course.courseSISID "6253-")

/-- The second loop of `main`: a course of the filtered list yields a
report row exactly when its workflow state is "unpublished". -/
def auditRows (courses : List CanvasCourse) (fetches : ℤ → CourseFetches) :
    List ResultItem :=
  (courseListOf courses).filterMap (fun course =>
    if course.workflowState = "unpublished" then
      some (auditCourse course (fetches course.id))
    else none)

/-- The probe requests issued across the whole second loop. -/
def auditLog (courses : List CanvasCourse) : List (ℤ × ProbeKind) :=
  (courseListOf courses).flatMap (fun course =>
    if course.workflowState = "unpublished" then auditRequests course else [])

/-- The combined selection predicate of the two loops. -/
def selectedCourse (course : CanvasCourse) : Bool :=
  goHasPrefix course.courseSISID "6253-" && decide (course.workflowState = "unpublished")

/-! ## CSV output (`cmd/app/main.go` lines 173–196) -/

/-- The header row written first. -/
def csvHeader : List String :=
  ["course_id", "course_name", "subject", "with_modules", "with_assignments",
   "with_front_page", "faculty_name", "faculty_email"]

/-- The record written for one result: each `fmt.Sprintf` bakes a
trailing comma into the field value, and the last element concatenates
the faculty name (with its trailing comma) and the faculty email into a
single field, so the record has seven fields. -/
def csvRecord (result : ResultItem) : List String :=
  [ toString result.courseID ++ ","
  , result.courseName ++ ","
  , result.subject ++ ","
  , result.withModules ++ ","
  , result.withAssignments ++ ","
  , result.withFrontPage ++ ","
  , (result.facultyName ++ ",") ++ result.facultyEmail ]

/-- The rows handed to `csv.NewWriter`: the header and then one record
per result, in order. -/
def csvRows (results : List ResultItem) : List (List String) :=
  csvHeader :: results.map csvRecord

/-! ## Pagination (`cmd/app/main.go` lines 199–251, `getCourses`)

The remote service is modelled as a script: the list of responses the
successive `api.Get` calls receive, consumed in order.  The embedded
loop additionally returns the list of endpoints it requested, so that
"follows the advertised continuation" is part of the statement. -/

/-- One page response: status code, decoded body (`none` = JSON decode
failure) and the raw `Link` header (`[]` = header absent). -/
structure CourseResp where
  statusCode : ℕ
  body : Option (List CanvasCourse)
  linkHeader : GoStr
deriving Repr

/-- The error outcomes of `getCourses`. -/
inductive CoursesError where
  | fetchFailed
  | badStatus (code : ℕ)
  | decodeFailed
deriving DecidableEq, Repr

/-- The literal searched for in each comma-separated segment of the
`Link` header. -/
def relNextStr : GoStr := "rel=\"next\"".toList

/-- The cutset of the `strings.Trim` call on the link URL. -/
def linkTrimCutset : GoStr := " <>".toList

/-- Lines 225–236 of `getCourses`: scan the comma-split segments, and at
the first segment containing `rel="next"` extract the URL (first
semicolon-separated piece, trimmed of angle brackets and spaces) and cut
the configured base URL off it; when no segment matches, the endpoint
stays at its reset value `""`. -/
def nextEndpoint (base : GoStr) : List GoStr → GoStr
  | [] => []
  | part :: rest =>
    if goContains part relNextStr then
      (goCutPrefix (goTrim linkTrimCutset ((goSplit ';' part).headD [])) base).1
    else nextEndpoint base rest

/-- The `for next` loop of `getCourses`: pop the scripted response for
the current endpoint, fail on non-200 or a decode failure, append the
page's courses, and stop when the `Link` header is absent or yields no
next endpoint; running out of scripted responses while a next page is
still expected models a transport failure of `api.Get`. -/
def getCoursesLoop (base : GoStr) :
    List CourseResp → GoStr → List CanvasCourse → List GoStr →
      Except CoursesError (List CanvasCourse × List GoStr)
  | [], _, _, _ => .error .fetchFailed
  | resp :: script, ep, acc, eps =>
    let eps := eps ++ [ep]
    if resp.statusCode ≠ 200 then .error (.badStatus resp.statusCode)
    else
      match resp.body with
      | none => .error .decodeFailed
      | some pageCourses =>
        let acc := acc ++ pageCourses
        if resp.linkHeader = [] then .ok (acc, eps)
        else
          let ep2 := nextEndpoint base (goSplit ',' resp.linkHeader)
          if ep2 = [] then .ok (acc, eps)
          else getCoursesLoop base script ep2 acc eps

/-- The initial endpoint built by `getCourses` from the search term. -/
def coursesEp (search : GoStr) : GoStr :=
  "accounts/1/courses?search_term=".toList ++ search ++ "&per_page=100".toList

/-- `getCourses(search)` against a scripted server. -/
def getCourses (base : GoStr) (script : List CourseResp) (search : GoStr) :
    Except CoursesError (List CanvasCourse × List GoStr) :=
  getCoursesLoop base script (coursesEp search) [] []

/-! ### Canonical synthetic pages for the pagination statements -/

/-- Characters that may appear in a continuation URL for the canonical
link-header rendering: anything except the delimiters the parser keys
on. -/
def urlChar (c : Char) : Prop := c ≠ ',' ∧ c ≠ ';' ∧ c ≠ ' ' ∧ c ≠ '<' ∧ c ≠ '>'

instance (c : Char) : Decidable (urlChar c) := by unfold urlChar; infer_instance

/-- The canonical `Link` header advertising a next page at `base ++ ep`:
the single segment that a link-relation header carries for the next
relation. -/
def renderNextHeader (base ep : GoStr) : GoStr :=
  '<' :: base ++ ep ++ ('>' :: ';' :: ' ' :: relNextStr)

/-- A 200 page whose `Link` header advertises the next page. -/
def mkNextResp (base : GoStr) (q : List CanvasCourse × GoStr) : CourseResp :=
  { statusCode := 200, body := some q.1, linkHeader := renderNextHeader base q.2 }

/-- A 200 page with no `Link` header. -/
def mkLastResp (items : List CanvasCourse) : CourseResp :=
  { statusCode := 200, body := some items, linkHeader := [] }

/-! ## Concrete scenario inputs -/

/-- The end-to-end scenario course of the specification: id 1,
unpublished, wiki default view, SIS id "6253-FA-ENG-201". -/
def c1_course : CanvasCourse :=
  { id := 1, name := "Course One", workflowState := "unpublished"
    defaultViewType := "wiki", format := "", courseSISID := "6253-FA-ENG-201" }

/-- The scenario's probe outcomes: modules decode to an empty list, the
front page has an empty body, the assignments fetch fails with HTTP 500,
and one teacher without an email address is returned. -/
def c1_fetches : CourseFetches :=
  { modules := some (200, some [])
    frontPage := some (200, some (some ""))
    assignments := some (500, some [])
    teachers := some (200, some [{ id := 2, name := "Teacher One", email := "", sisID := "T1" }]) }

/-- A governor state mid-run: max 700, full quota recorded, average cost
10 over five completed requests. -/
def c2_state : APIState :=
  { maxRateLimit := 700, rateLimitRemaining := 700, averageRateCost := 10
    requestSendCount := 5, responseReceivedCount := 5 }

/-- A fresh governor whose first `Get` failed at the network layer: the
send counter advanced without any response being observed. -/
def c5_state1 : APIState := Get_sendFail (NewAPI 700)

/-- The state after the next request completes with cost 10 and full
remaining quota. -/
def c5_state2 : APIState := (Get_update c5_state1 (some 700) (some 10) 200).1

/-- A concrete API base URL for the pagination witness. -/
def c7_base : GoStr := "https://beta.example.edu/api/v1/".toList

/-- Continuation endpoints advertised by the synthetic pages. -/
def c7_ep2 : GoStr := "accounts/1/courses?page=2&per_page=100".toList

def c7_ep3 : GoStr := "accounts/1/courses?page=3&per_page=100".toList

/-- Three synthetic courses, one per page. -/
def c7_course1 : CanvasCourse :=
  { id := 11, name := "P1", workflowState := "unpublished"
    defaultViewType := "wiki", format := "", courseSISID := "6253-FA-ART-101" }

def c7_course2 : CanvasCourse :=
  { id := 12, name := "P2", workflowState := "available"
    defaultViewType := "modules", format := "", courseSISID := "6253-FA-BIO-102" }

def c7_course3 : CanvasCourse :=
  { id := 13, name := "P3", workflowState := "unpublished"
    defaultViewType := "modules", format := "", courseSISID := "6252-FA-CHM-103" }

/-- The two leading synthetic pages (each advertising the next) of the
three-page pagination scenario. -/
def c7_pre : List (List CanvasCourse × GoStr) :=
  [([c7_course1], c7_ep2), ([c7_course2], c7_ep3)]

/-- An unpublished term course whose default view is not "wiki". -/
def c10_course : CanvasCourse :=
  { id := 7, name := "Course Seven", workflowState := "unpublished"
    defaultViewType := "modules", format := "", courseSISID := "6253-FA-MATH-101" }

/-- Healthy probe outcomes for `c10_course`; the front-page outcome is
present but never fetched because the default view is not "wiki". -/
def c10_fetches : CourseFetches :=
  { modules := some (200, some [()])
    frontPage := some (200, some (some "welcome"))
    assignments := some (200, some [()])
    teachers := some (200, some [{ id := 3, name := "Teacher Three", email := "t3@example.edu", sisID := "T3" }]) }

/-! ## Claim theorems -/

/-- C1: on the specification's end-to-end scenario — modules decode
empty, front page body empty, assignments fetch fails, one teacher
without an email — the produced row reports the failed assignments probe
as "No", not as the distinguishable "Error" the specification requires:
the "Error" assignment is dead code, immediately overwritten by the
unconditional Yes/No branch.  The row is otherwise assembled as
specified (subject "ENG", teacher name joined, "No Email"). -/
theorem c1_assignments_error_reported_No :
    (auditCourse c1_course c1_fetches).withAssignments = "No"
    ∧ (auditCourse c1_course c1_fetches).withAssignments ≠ "Error"
    ∧ (auditCourse c1_course c1_fetches).withModules = "No"
    ∧ (auditCourse c1_course c1_fetches).withFrontPage = "No"
    ∧ (auditCourse c1_course c1_fetches).courseID = 1
    ∧ (auditCourse c1_course c1_fetches).subject = "ENG"
    ∧ (auditCourse c1_course c1_fetches).facultyName = "Teacher One"
    ∧ (auditCourse c1_course c1_fetches).facultyEmail = "No Email" := by
  decide

/-- C2 counterexample: with max 700, previous average cost 10, remaining
header 70 (10% of quota, so the ladder computes 350 s) and observed cost
13 (a spike above 120% of the average), the final delay is the flat 30 s
— the larger ladder delay was replaced, not combined by maximum. -/
theorem c2_cex_spike_replaces_larger_delay :
    (Get_update c2_state (some 70) (some 13) 200).2 = 30 * secondNs
    ∧ ladderDelay 700 ((Get_update c2_state (some 70) (some 13) 200).1.rateLimitRemaining)
        = 350 * secondNs
    ∧ 30 * secondNs < 350 * secondNs
    ∧ (Get_update c2_state (some 70) (some 13) 429).2 = 30 * secondNs
    ∧ 30 * secondNs ≠ 300 * secondNs := by
  norm_num [Get_update, ladderDelay, c2_state, secondNs]

/-- C2 amended: the cost-spike branch assigns the flat 30-second delay,
overwriting whatever delay (ladder or the 429 five-minute delay) was
already computed for the cycle — even a larger one; the 429 status
yields the fixed five-minute delay, regardless of the quota fraction,
only when the cost-spike condition does not also hold. -/
theorem c2_spike_overwrites_delay (st : APIState) (remH costH : Option ℚ) (status : ℕ) :
    (st.averageRateCost > 0 → costH.getD 0 > st.averageRateCost * (6/5) →
      (Get_update st remH costH status).2 = 30 * secondNs)
    ∧ (status = 429 →
        ¬(st.averageRateCost > 0 ∧ costH.getD 0 > st.averageRateCost * (6/5)) →
        (Get_update st remH costH status).2 = 300 * secondNs) := by
  constructor
  · intro h1 h2
    simp only [Get_update]
    rw [if_pos ⟨h1, h2⟩]
  · intro hs hn
    simp only [Get_update]
    rw [if_neg hn, if_pos hs]

/-- C2 witness: the amended statement instantiated — a spike (average
10, cost 13) with status 200 yields 30 s, and a 429 without a spike
(cost 11) yields the five-minute delay. -/
theorem c2_witness :
    (Get_update c2_state (some 70) (some 13) 200).2 = 30 * secondNs
    ∧ (Get_update c2_state (some 70) (some 11) 429).2 = 300 * secondNs := by
  constructor
  · exact (c2_spike_overwrites_delay c2_state (some 70) (some 13) 200).1
      (by norm_num [c2_state]) (by norm_num [c2_state])
  · exact (c2_spike_overwrites_delay c2_state (some 70) (some 11) 429).2
      rfl (by norm_num [c2_state])

/-- C3 counterexample: in the `pkg/canvas/main.go` variant of `Get` the
`strconv.ParseFloat` error is discarded, so an unparseable
RateLimit-Remaining header leaves Go's zero value: with max 700 the
recorded remaining quota is 0 — zero remaining, not the claimed 50%
(350). -/
theorem c3_cex_unparseable_records_zero :
    (Get_update (NewAPI 700) none (some 1) 200).1.rateLimitRemaining = 0
    ∧ (0 : ℚ) ≠ 350 := by
  norm_num [Get_update, NewAPI]

/-- C3 amended: an unparseable remaining-quota header is never raised to
the caller (the update is total); the `pkg/canvas/main.go` `Get` records
the remaining quota as 0, while the `part_001` variant records
`maxRateLimit / 2` (Go integer division, i.e. 50% of the maximum). -/
theorem c3_unparseable_remaining_defaults
    (st : APIState) (costH : Option ℚ) (status : ℕ) :
    (Get_update st none costH status).1.rateLimitRemaining = 0
    ∧ (Get1_update st none costH status).1.rateLimitRemaining
        = ((st.maxRateLimit / 2 : ℕ) : ℚ) := by
  constructor
  · simp only [Get_update, Option.getD_none]
    rcases Nat.eq_zero_or_pos st.maxRateLimit with h | h
    · simp [h]
    · rw [if_pos (by exact_mod_cast h)]
  · simp only [Get1_update, Option.getD_none]
    rcases Nat.eq_zero_or_pos st.maxRateLimit with h | h
    · simp [h]
    · rw [if_pos (by exact_mod_cast Nat.div_lt_self h (by omega))]

/-- C4: the delay ladder is keyed purely on the remaining fraction of
the maximum quota — at most 25% remaining yields max/2 seconds, more
than 25% up to 50% yields max/4, more than 50% up to 75% yields max/8,
above 75% yields zero; with max 700, remaining 70 (10%) selects the
≤ 25% tier (350 s) and remaining 420 (60%) the ≤ 75% tier; and whenever
neither the 429 override nor the cost-spike override fires, the delay
`Get` computes is exactly the ladder value of the freshly recorded
remaining quota, for every observed cost. -/
theorem c4_ladder_tiers (maxQ : ℕ) (rem : ℚ) :
    (rem ≤ (maxQ : ℚ) * (1/4) → ladderDelay maxQ rem = maxQ * secondNs / 2)
    ∧ ((maxQ : ℚ) * (1/4) < rem → rem ≤ (maxQ : ℚ) * (1/2) →
        ladderDelay maxQ rem = maxQ * secondNs / 4)
    ∧ ((maxQ : ℚ) * (1/2) < rem → rem ≤ (maxQ : ℚ) * (3/4) →
        ladderDelay maxQ rem = maxQ * secondNs / 8)
    ∧ ((maxQ : ℚ) * (3/4) < rem → ladderDelay maxQ rem = 0)
    ∧ ladderDelay 700 70 = 350 * secondNs
    ∧ ladderDelay 700 420 = 700 * secondNs / 8
    ∧ (∀ (st : APIState) (remH costH : Option ℚ) (status : ℕ),
        status ≠ 429 →
        ¬(st.averageRateCost > 0 ∧ costH.getD 0 > st.averageRateCost * (6/5)) →
        (Get_update st remH costH status).2
          = ladderDelay st.maxRateLimit
              (Get_update st remH costH status).1.rateLimitRemaining) := by
  refine ⟨?_, ?_, ?_, ?_, ?_, ?_, ?_⟩
  · intro h
    rw [ladderDelay, if_pos h]
  · intro h1 h2
    rw [ladderDelay, if_neg (not_le.mpr h1), if_pos h2]
  · intro h1 h2
    rw [ladderDelay,
        if_neg (not_le.mpr (lt_of_le_of_lt
          (mul_le_mul_of_nonneg_left (by norm_num) (Nat.cast_nonneg maxQ)) h1)),
        if_neg (not_le.mpr h1), if_pos h2]
  · intro h
    rw [ladderDelay,
        if_neg (not_le.mpr (lt_of_le_of_lt
          (mul_le_mul_of_nonneg_left (by norm_num) (Nat.cast_nonneg maxQ)) h)),
        if_neg (not_le.mpr (lt_of_le_of_lt
          (mul_le_mul_of_nonneg_left (by norm_num) (Nat.cast_nonneg maxQ)) h)),
        if_neg (not_le.mpr h)]
  · norm_num [ladderDelay, secondNs]
  · norm_num [ladderDelay, secondNs]
  · intro st remH costH status hs hc
    simp only [Get_update]
    rw [if_neg hc, if_neg hs]

/-- C4 witness: remaining 70 of max 700 yields the 350-second tier, and
a fresh governor observing remaining 70 with cost 1 and status 200
computes exactly the ladder delay of its recorded remaining quota. -/
theorem c4_witness :
    ladderDelay 700 70 = 350 * secondNs
    ∧ (Get_update (NewAPI 700) (some 70) (some 1) 200).2
        = ladderDelay 700 (Get_update (NewAPI 700) (some 70) (some 1) 200).1.rateLimitRemaining := by
  constructor
  · exact (c4_ladder_tiers 700 70).2.2.2.2.1
  · exact (c4_ladder_tiers 700 70).2.2.2.2.2.2 (NewAPI 700) (some 70) (some 1) 200
      (by norm_num) (by norm_num [NewAPI])

/-- C5 counterexample: after one request whose send failed at the
network layer (no response observed), the next completed request with
cost 10 updates the average to 10/2 = 5 — the divisor is the count of
sent requests (2), not the count of completed responses (1), and the
first positive-cost observation does not seed the average to that cost
(10). -/
theorem c5_cex_failed_send_skews_average :
    c5_state2.averageRateCost = 5
    ∧ c5_state2.responseReceivedCount = 1
    ∧ c5_state2.averageRateCost ≠ (0 : ℚ) + ((10 : ℚ) - 0) / 1 := by
  norm_num [c5_state2, c5_state1, Get_update, Get_sendFail, NewAPI]

/-- C5 amended: on a positive parsed cost the average is updated by the
incremental mean `avg += (cost - avg) / requestSendCount`, where
`requestSendCount` counts requests **sent** so far (including any whose
send failed without a response); the divisor, being the just-incremented
counter, is never zero; and the observation seeds the average to exactly
the observed cost precisely when it happens on the first sent
request. -/
theorem c5_average_uses_send_count
    (st : APIState) (remH costH : Option ℚ) (status : ℕ)
    (h : costH.getD 0 > 0) :
    (Get_update st remH costH status).1.averageRateCost
      = st.averageRateCost
          + (costH.getD 0 - st.averageRateCost) / ((st.requestSendCount + 1 : ℕ) : ℚ)
    ∧ ((st.requestSendCount + 1 : ℕ) : ℚ) ≠ 0
    ∧ (st.requestSendCount = 0 →
        (Get_update st remH costH status).1.averageRateCost = costH.getD 0) := by
  refine ⟨?_, ?_, ?_⟩
  · simp only [Get_update]
    rw [if_pos h]
  · exact_mod_cast Nat.succ_ne_zero st.requestSendCount
  · intro h0
    simp only [Get_update]
    rw [if_pos h, h0]
    norm_num

/-- C5 witness: a fresh governor's very first completed request with
cost 10 seeds the average to exactly 10. -/
theorem c5_witness :
    (Get_update (NewAPI 700) (some 700) (some 10) 200).1.averageRateCost = 10 := by
  exact (c5_average_uses_send_count (NewAPI 700) (some 700) (some 10) 200
    (by norm_num)).2.2 rfl

/-- C6: the `part_001` jitter draws `r < delay/4` in nanoseconds but
multiplies the draw by `time.Millisecond`, scaling it by 10^6: for the
flat 30-second delay a legal draw of 7499999999 makes the total sleep
exceed 1.25 × delay by six orders of magnitude (about 86.8 days),
violating the documented "at most 25% of the delay" jitter bound; the
`pkg/canvas/main.go` variant sleeps exactly the computed delay with no
jitter at all. -/
theorem c6_jitter_unit_blowup :
    7499999999 < 30 * secondNs / 4
    ∧ part001_sleepNs (30 * secondNs) 7499999999
        > 30 * secondNs + 30 * secondNs / 4
    ∧ Get_sleepNs (30 * secondNs) = 30 * secondNs := by
  refine ⟨by norm_num [secondNs], by norm_num [part001_sleepNs, secondNs], rfl⟩

/-- C8: a report row is produced, and probes are issued, for exactly the
courses whose SIS id starts with "6253-" and whose workflow state is
"unpublished": the two selection loops of `main` fuse into one filter,
and every dropped course contributes neither a row nor any probe
request. -/
theorem c8_selection_filter (courses : List CanvasCourse) (fetches : ℤ → CourseFetches) :
    auditRows courses fetches
      = (courses.filter selectedCourse).map
          (fun course => auditCourse course (fetches course.id))
    ∧ auditLog courses = (courses.filter selectedCourse).flatMap auditRequests := by
  induction courses with
  | nil => exact ⟨rfl, rfl⟩
  | cons c cs ih =>
    obtain ⟨ih1, ih2⟩ := ih
    constructor
    · simp only [auditRows, courseListOf, List.filter_cons] at ih1 ⊢
      by_cases h1 : goHasPrefix c.courseSISID "6253-" <;>
        by_cases h2 : c.workflowState = "unpublished" <;>
          simp [selectedCourse, h1, h2, ih1]
    · simp only [auditLog, courseListOf, List.filter_cons] at ih2 ⊢
      by_cases h1 : goHasPrefix c.courseSISID "6253-" <;>
        by_cases h2 : c.workflowState = "unpublished" <;>
          simp [selectedCourse, h1, h2, ih2]

/-- C9: the CSV artifact starts with the eight-column header and has one
record per result in order, but every data record has only **seven**
fields — each `Sprintf` bakes a trailing comma into the value, and the
faculty name and email are concatenated into a single field — so the
data rows are not aligned with the header. -/
theorem c9_record_has_seven_fields :
    csvHeader.length = 8
    ∧ (∀ result : ResultItem, (csvRecord result).length = 7)
    ∧ (∀ results : List ResultItem,
        (csvRows results).headD [] = csvHeader
        ∧ (csvRows results).length = results.length + 1)
    ∧ (csvRecord (auditCourse c1_course c1_fetches)).getD 0 "" = "1,"
    ∧ (csvRecord (auditCourse c1_course c1_fetches)).getD 6 "" = "Teacher One,No Email" := by
  refine ⟨rfl, fun result => rfl, fun results => ⟨rfl, by simp [csvRows]⟩,
    by decide, by decide⟩

/-- C10 counterexample: for an unpublished term course whose default
view is "modules", the with_front_page value in the emitted record is
the one-character string "," (the trailing comma every field receives),
not an empty cell. -/
theorem c10_cex_csv_cell_not_empty :
    (csvRecord (auditCourse c10_course c10_fetches)).getD 5 "" = ","
    ∧ ("," : String) ≠ "" := by
  decide

/-- C10 amended: for a course whose default view is not "wiki" no
front-page request is issued and the row's with_front_page field is left
at the string zero value "" — distinct from both "No" and "Error" — a
fourth de-facto outcome; the corresponding CSV field is the field value
followed by the universal trailing comma, i.e. ",", not an empty
cell. -/
theorem c10_non_wiki_front_page_blank (course : CanvasCourse) (f : CourseFetches)
    (h : course.defaultViewType ≠ "wiki") :
    (auditCourse course f).withFrontPage = ""
    ∧ (auditCourse course f).withFrontPage ≠ "No"
    ∧ (auditCourse course f).withFrontPage ≠ "Error"
    ∧ (course.id, ProbeKind.frontPage) ∉ auditRequests course
    ∧ (csvRecord (auditCourse course f)).getD 5 ""
        = (auditCourse course f).withFrontPage ++ "," := by
  have hfp : (auditCourse course f).withFrontPage = "" := by
    cases hT : getCourseTeachers f.teachers <;>
      simp [auditCourse, hT, h, apply_ite ResultItem.withFrontPage]
  refine ⟨hfp, by rw [hfp]; decide, by rw [hfp]; decide, ?_, rfl⟩
  simp [auditRequests, h]

/-- C10 witness: the concrete modules-view course has an empty
with_front_page field. -/
theorem c10_witness :
    c10_course.defaultViewType ≠ "wiki"
    ∧ (auditCourse c10_course c10_fetches).withFrontPage = "" := by
  exact ⟨by decide, (c10_non_wiki_front_page_blank c10_course c10_fetches (by decide)).1⟩

/-! ### Lemmas about the Go string helpers, towards the pagination
theorem -/

theorem goSplit_ne_nil (sep : Char) (s : GoStr) : goSplit sep s ≠ [] := by
  cases s with
  | nil => simp [goSplit]
  | cons c rest =>
    simp only [goSplit]
    cases hgs : goSplit sep rest with
    | nil => simp
    | cons p ps =>
      simp only [hgs]
      split <;> simp

theorem goSplit_of_not_mem (sep : Char) (s : GoStr) (h : sep ∉ s) :
    goSplit sep s = [s] := by
  induction s with
  | nil => rfl
  | cons c rest ih =>
    have hc : c ≠ sep := fun hcc => h (hcc ▸ List.mem_cons_self c rest)
    have hrest : sep ∉ rest := fun hm => h (List.mem_cons_of_mem c hm)
    simp only [goSplit, ih hrest]
    rw [if_neg hc]

theorem goSplit_append (sep : Char) (s1 s2 : GoStr) (h1 : sep ∉ s1) :
    goSplit sep (s1 ++ sep :: s2) = s1 :: goSplit sep s2 := by
  induction s1 with
  | nil =>
    simp only [List.nil_append, goSplit]
    cases hgs : goSplit sep s2 with
    | nil => exact absurd hgs (goSplit_ne_nil sep s2)
    | cons p ps => simp
  | cons c rest ih =>
    have hc : c ≠ sep := fun hcc => h1 (hcc ▸ List.mem_cons_self c rest)
    have hrest : sep ∉ rest := fun hm => h1 (List.mem_cons_of_mem c hm)
    simp only [List.cons_append, goSplit, List.append_eq, ih hrest]
    rw [if_neg hc]

theorem dropWhile_eq_self_of_head {p : Char → Bool} (l : GoStr)
    (h : ∀ c ∈ l, p c = false) : l.dropWhile p = l := by
  cases l with
  | nil => rfl
  | cons c rest => simp [List.dropWhile_cons, h c (List.mem_cons_self c rest)]

theorem urlChar_not_in_cutset (c : Char) (hc : urlChar c) :
    linkTrimCutset.contains c = false := by
  obtain ⟨h1, h2, h3, h4, h5⟩ := hc
  simp [linkTrimCutset, List.contains]
  exact ⟨h3, h4, h5⟩

theorem goTrim_wrap (u : GoStr) (hu : ∀ c ∈ u, urlChar c) (hne : u ≠ []) :
    goTrim linkTrimCutset ('<' :: (u ++ ['>'])) = u := by
  obtain ⟨x, rest, rfl⟩ : ∃ x rest, u = x :: rest := by
    cases u with
    | nil => exact absurd rfl hne
    | cons x rest => exact ⟨x, rest, rfl⟩
  unfold goTrim
  have hhead : linkTrimCutset.contains x = false :=
    urlChar_not_in_cutset x (hu x (List.mem_cons_self x rest))
  have hlt : linkTrimCutset.contains '<' = true := by decide
  have hgt : linkTrimCutset.contains '>' = true := by decide
  rw [List.dropWhile_cons]
  simp only [hlt, if_true, List.cons_append, List.dropWhile_cons, hhead]
  simp only [Bool.false_eq_true, if_false]
  rw [show ((x :: (rest ++ ['>'])).reverse) = '>' :: (rest.reverse ++ [x]) by simp]
  rw [List.dropWhile_cons]
  simp only [hgt, if_true]
  rw [dropWhile_eq_self_of_head (rest.reverse ++ [x]) ?hrest]
  · simp
  case hrest =>
    intro c hcmem
    refine urlChar_not_in_cutset c (hu c ?_)
    rcases List.mem_append.mp hcmem with h | h
    · exact List.mem_cons_of_mem x (List.mem_reverse.mp h)
    · simp only [List.mem_singleton] at h
      exact h ▸ List.mem_cons_self x rest

theorem goCutPrefix_append (base ep : GoStr) : (goCutPrefix (base ++ ep) base).1 = ep := by
  unfold goCutPrefix
  rw [if_pos (List.isPrefixOf_iff_prefix.mpr ⟨ep, rfl⟩)]
  simp [List.drop_left]

theorem goContains_render (base ep : GoStr) :
    goContains (renderNextHeader base ep) relNextStr = true := by
  unfold goContains
  rw [decide_eq_true_eq]
  refine ⟨'<' :: (base ++ ep ++ ['>', ';', ' ']), [], ?_⟩
  simp [renderNextHeader, List.append_assoc]

theorem mem_render (base ep : GoStr) (x : Char) (hx : x ∈ renderNextHeader base ep) :
    x = '<' ∨ x ∈ base ∨ x ∈ ep ∨ x = '>' ∨ x = ';' ∨ x = ' ' ∨ x ∈ relNextStr := by
  simp only [renderNextHeader, List.cons_append, List.mem_cons, List.mem_append] at hx
  tauto

/-- Parsing the canonical next-page header recovers the advertised
endpoint: the header splits into a single comma part, that part contains
the next relation, its first semicolon piece trimmed of angle brackets
is the absolute URL, and cutting the base leaves the endpoint. -/
theorem nextEndpoint_render (base ep : GoStr)
    (hb : ∀ c ∈ base, urlChar c) (he : ∀ c ∈ ep, urlChar c) (hne : ep ≠ []) :
    nextEndpoint base (goSplit ',' (renderNextHeader base ep)) = ep := by
  have hcomma : ',' ∉ renderNextHeader base ep := by
    intro hmem
    rcases mem_render base ep ',' hmem with h | h | h | h | h | h | h
    · exact absurd h (by decide)
    · exact (hb ',' h).1 rfl
    · exact (he ',' h).1 rfl
    · exact absurd h (by decide)
    · exact absurd h (by decide)
    · exact absurd h (by decide)
    · exact absurd h (by decide)
  rw [goSplit_of_not_mem ',' _ hcomma]
  unfold nextEndpoint
  rw [goContains_render base ep, if_pos rfl]
  have hsplit : renderNextHeader base ep
      = ('<' :: ((base ++ ep) ++ ['>'])) ++ (';' :: (' ' :: relNextStr)) := by
    simp [renderNextHeader, List.append_assoc]
  have hsemi : ';' ∉ '<' :: ((base ++ ep) ++ ['>']) := by
    intro hmem
    rcases List.mem_cons.mp hmem with h | h
    · exact absurd h (by decide)
    · rcases List.mem_append.mp h with h | h
      · rcases List.mem_append.mp h with h | h
        · exact (hb ';' h).2.1 rfl
        · exact (he ';' h).2.1 rfl
      · simp only [List.mem_singleton] at h
        exact absurd h (by decide)
  rw [hsplit, goSplit_append ';' _ _ hsemi]
  simp only [List.headD_cons]
  have hwrap := goTrim_wrap (base ++ ep)
    (by
      intro c hmem
      rcases List.mem_append.mp hmem with h | h
      · exact hb c h
      · exact he c h)
    (by
      intro hnil
      exact hne (List.append_eq_nil.mp hnil).2)
  rw [hwrap, goCutPrefix_append]

/-- Driving the loop over a script of next-advertising pages followed by
a final page with no `Link` header collects every page's items in order
and requests exactly the advertised continuations. -/
theorem getCoursesLoop_script (base : GoStr) (hb : ∀ c ∈ base, urlChar c) :
    ∀ (pre : List (List CanvasCourse × GoStr)) (lastItems : List CanvasCourse)
      (ep : GoStr) (acc : List CanvasCourse) (eps : List GoStr),
      (∀ q ∈ pre, q.2 ≠ [] ∧ ∀ c ∈ q.2, urlChar c) →
      getCoursesLoop base (pre.map (mkNextResp base) ++ [mkLastResp lastItems]) ep acc eps
        = .ok (acc ++ pre.flatMap Prod.fst ++ lastItems, eps ++ ep :: pre.map Prod.snd) := by
  intro pre
  induction pre with
  | nil =>
    intro lastItems ep acc eps _
    simp [getCoursesLoop, mkLastResp]
  | cons q rest ih =>
    intro lastItems ep acc eps hpre
    obtain ⟨hq1, hq2⟩ := hpre q (List.mem_cons_self q rest)
    have hrest : ∀ r ∈ rest, r.2 ≠ [] ∧ ∀ c ∈ r.2, urlChar c :=
      fun r hr => hpre r (List.mem_cons_of_mem q hr)
    have hrender : renderNextHeader base q.2 ≠ [] := by simp [renderNextHeader]
    simp only [List.map_cons, List.cons_append, getCoursesLoop, mkNextResp, List.append_eq]
    rw [if_neg (by norm_num)]
    simp only [if_neg hrender, nextEndpoint_render base q.2 hb hq2 hq1, if_neg hq1]
    rw [ih lastItems q.2 (acc ++ q.1) (eps ++ [ep]) hrest]
    simp [List.append_assoc]

/-- When every scripted page advertises a next page the loop never
terminates normally: it exhausts the script still expecting a page,
which models `api.Get` failing at the transport layer. -/
theorem getCoursesLoop_allNext (base : GoStr) (hb : ∀ c ∈ base, urlChar c) :
    ∀ (pre : List (List CanvasCourse × GoStr))
      (ep : GoStr) (acc : List CanvasCourse) (eps : List GoStr),
      (∀ q ∈ pre, q.2 ≠ [] ∧ ∀ c ∈ q.2, urlChar c) →
      getCoursesLoop base (pre.map (mkNextResp base)) ep acc eps
        = .error .fetchFailed := by
  intro pre
  induction pre with
  | nil => intro ep acc eps _; rfl
  | cons q rest ih =>
    intro ep acc eps hpre
    obtain ⟨hq1, hq2⟩ := hpre q (List.mem_cons_self q rest)
    have hrest : ∀ r ∈ rest, r.2 ≠ [] ∧ ∀ c ∈ r.2, urlChar c :=
      fun r hr => hpre r (List.mem_cons_of_mem q hr)
    have hrender : renderNextHeader base q.2 ≠ [] := by simp [renderNextHeader]
    simp only [List.map_cons, getCoursesLoop, mkNextResp, List.append_eq]
    rw [if_neg (by norm_num)]
    simp only [if_neg hrender, nextEndpoint_render base q.2 hb hq2 hq1, if_neg hq1]
    exact ih q.2 (acc ++ q.1) (eps ++ [ep]) hrest

/-- C7: against any synthetic scripted server whose pages each either
advertise the next page in a canonical well-formed next-relation segment
or carry no link header, `getCourses` terminates normally exactly when a
page without a next relation is reached: with a final headerless page it
returns the concatenation of all pages' items in order, requesting
exactly the advertised continuation endpoints; with every page
advertising a next page it keeps following and never terminates normally
(the exhausted script surfaces as a fetch error); and a page whose link
header carries only a non-next relation segment also terminates
pagination normally. -/
theorem c7_pagination_follows_next (base search : GoStr)
    (pre : List (List CanvasCourse × GoStr)) (lastItems : List CanvasCourse)
    (hb : ∀ c ∈ base, urlChar c)
    (hpre : ∀ q ∈ pre, q.2 ≠ [] ∧ ∀ c ∈ q.2, urlChar c) :
    getCourses base (pre.map (mkNextResp base) ++ [mkLastResp lastItems]) search
      = .ok (pre.flatMap Prod.fst ++ lastItems, coursesEp search :: pre.map Prod.snd)
    ∧ getCourses base (pre.map (mkNextResp base)) search = .error .fetchFailed
    ∧ getCoursesLoop base
        [{ statusCode := 200, body := some lastItems
           linkHeader := "<https://x/p9>; rel=\"last\"".toList }]
        (coursesEp search) [] []
        = .ok (lastItems, [coursesEp search]) := by
  refine ⟨?_, ?_, ?_⟩
  · have h := getCoursesLoop_script base hb pre lastItems (coursesEp search) [] [] hpre
    simpa [getCourses] using h
  · exact getCoursesLoop_allNext base hb pre (coursesEp search) [] [] hpre
  · rfl

/-- C7 witness: three synthetic pages, the first two advertising the
next page's absolute URL in a `rel="next"` segment and the third with no
link header, yield the three courses concatenated in page order, the
loop having requested exactly the two advertised endpoints after the
initial search endpoint. -/
theorem c7_witness :
    getCourses c7_base (c7_pre.map (mkNextResp c7_base) ++ [mkLastResp [c7_course3]])
        "6253-".toList
      = .ok ([c7_course1, c7_course2, c7_course3],
             [coursesEp "6253-".toList, c7_ep2, c7_ep3]) := by
  have h := (c7_pagination_follows_next c7_base "6253-".toList c7_pre [c7_course3]
    (by decide) (by decide)).1
  simpa [c7_pre] using h
